import Mathlib

/-
  Shallow embedding of the OpenMW weather simulation core
  (apps/openmw/mwworld/weather.cpp).

  Modelling conventions:
  * C++ float arithmetic is modelled by exact rational arithmetic (ℚ).
  * Weather ids are modelled as ℤ with the sentinel invalidWeatherID = -1,
    exactly as in the source.
  * Random draws (Misc::Rng::rollDice, Misc::Rng::rollProbability) are passed
    in as explicit parameters.
  * std::vector indexing that the source performs is modelled by List.getD
    with a default element when the source guarantees the index is in range;
    the one place where the source can index out of bounds
    (RegionWeather::setChances) is modelled with Option, returning none when
    a write would be out of bounds.
  * Methods that mutate fields are modelled as state-passing functions.
-/

/-- The invalid weather sentinel, `invalidWeatherID = -1` in the source. -/
def invalidWeatherID : ℤ := -1

/-- Linear interpolation between x and y based on factor, as in the
anonymous-namespace helper `lerp`. -/
def lerp (x y factor : ℚ) : ℚ := x * (1 - factor) + y * factor

/-- The time-of-day phase boundaries (TimeOfDaySettings in weather.hpp). -/
structure TimeOfDaySettings where
  mNightStart : ℚ
  mNightEnd : ℚ
  mDayStart : ℚ
  mDayEnd : ℚ
  mSunriseTime : ℚ
deriving DecidableEq

/-- The four keyframes of a TimeOfDayInterpolator, instantiated at scalars
(the source template is instantiated at float and at osg::Vec4f, which is
the same computation componentwise). -/
structure TimeOfDayInterpolator where
  mSunriseValue : ℚ
  mDayValue : ℚ
  mSunsetValue : ℚ
  mNightValue : ℚ
deriving DecidableEq

/-- TimeOfDayInterpolator::getValue from the source: a chain of phase tests,
first match wins; the trailing `return T()` of the source is the final 0. -/
def TimeOfDayInterpolator.getValue (iv : TimeOfDayInterpolator) (gameHour : ℚ)
    (ts : TimeOfDaySettings) : ℚ :=
  if gameHour ≤ ts.mNightEnd ∨ gameHour ≥ ts.mNightStart + 1 then
    iv.mNightValue
  else if gameHour ≥ ts.mNightEnd ∧ gameHour ≤ ts.mDayStart + 1 then
    if gameHour ≤ ts.mSunriseTime then
      lerp iv.mSunriseValue iv.mNightValue ((ts.mSunriseTime - gameHour) / (1/2))
    else
      lerp iv.mSunriseValue iv.mDayValue ((gameHour - ts.mSunriseTime) / 3)
  else if gameHour ≥ ts.mDayStart + 1 ∧ gameHour ≤ ts.mDayEnd - 1 then
    iv.mDayValue
  else if gameHour ≥ ts.mDayEnd - 1 ∧ gameHour ≤ ts.mNightStart + 1 then
    if gameHour ≤ ts.mDayEnd + 1 then
      lerp iv.mSunsetValue iv.mDayValue ((ts.mDayEnd + 1 - gameHour) / 2)
    else
      lerp iv.mSunsetValue iv.mNightValue ((gameHour - (ts.mDayEnd + 1)) / 2)
  else 0

/-- The Weather fields the verified operations read or write.  All fields
except mFlashBrightness are immutable configuration in the source. -/
structure Weather where
  mTransitionDelta : ℚ
  mThunderFrequency : ℚ
  mThunderThreshold : ℚ
  mFlashDecrement : ℚ
  mFlashBrightness : ℚ
deriving DecidableEq

/-- Weather::transitionDelta. -/
def Weather.transitionDelta (w : Weather) : ℚ := w.mTransitionDelta

/-- Weather::flashDecrement: decay mFlashBrightness linearly with a floor
of 0. -/
def Weather.flashDecrement (w : Weather) (elapsedSeconds : ℚ) : Weather :=
  let decrement := w.mFlashDecrement * elapsedSeconds
  { w with mFlashBrightness :=
      if decrement > w.mFlashBrightness then 0 else w.mFlashBrightness - decrement }

/-- Weather::thunderChance. -/
def Weather.thunderChance (w : Weather) (transitionRat elapsedSeconds : ℚ) : ℚ :=
  let scaleFactor := (transitionRat - w.mThunderThreshold) / (1 - w.mThunderThreshold)
  ((w.mThunderFrequency * 10) / 60) * elapsedSeconds * scaleFactor

/-- Weather::lightningAndThunder: distance is the rollDice(4) draw; returns
the updated weather plus the thunder sound index played. -/
def Weather.lightningAndThunder (w : Weather) (distance : ℕ) : Weather × List ℕ :=
  ({ w with mFlashBrightness := w.mFlashBrightness + (1 - (distance : ℚ) * (1/4)) },
   [distance])

/-- Outcome of one Weather::calculateThunder call: the updated weather
state, the returned flash brightness, and the sound indices played. -/
structure ThunderOutcome where
  weather : Weather
  brightness : ℚ
  sounds : List ℕ
deriving DecidableEq

/-- Weather::calculateThunder.  probRoll models Misc::Rng::rollProbability
and diceRoll models Misc::Rng::rollDice(4). -/
def Weather.calculateThunder (w : Weather) (transitionRat elapsedSeconds : ℚ)
    (isPaused : Bool) (probRoll : ℚ) (diceRoll : ℕ) : ThunderOutcome :=
  if isPaused = false then
    if transitionRat ≥ w.mThunderThreshold ∧ w.mThunderFrequency > 0 then
      let w1 := w.flashDecrement elapsedSeconds
      if probRoll ≤ w1.thunderChance transitionRat elapsedSeconds then
        let r := w1.lightningAndThunder diceRoll
        ⟨r.1, r.1.mFlashBrightness, r.2⟩
      else
        ⟨w1, w1.mFlashBrightness, []⟩
    else
      ⟨{ w with mFlashBrightness := 0 }, 0, []⟩
  else
    ⟨w, w.mFlashBrightness, []⟩

/-- A sequence of calculateThunder calls threading the weather state,
recording each returned brightness with the sounds it emitted. -/
def runThunder (isPaused : Bool) : Weather → List (ℚ × ℚ × ℚ × ℕ) →
    Weather × List (ℚ × List ℕ)
  | w, [] => (w, [])
  | w, (tr, es, p, d) :: rest =>
    let r := Weather.calculateThunder w tr es isPaused p d
    let t := runThunder isPaused r.weather rest
    (t.1, (r.brightness, r.sounds) :: t.2)

/-- The per-region weather state (RegionWeather): selected weather id and
the chance table.  Chance entries are the 0..100 byte values of the region
record. -/
structure RegionWeather where
  mWeather : ℤ
  mChances : List ℕ
deriving DecidableEq

/-- The accumulating selection loop of RegionWeather::chooseNewWeather:
walks the chance table, breaking at the first index whose running sum
reaches the drawn chance; when the loop runs off the end, the loop counter
equals the table size. -/
def chooseGo : List ℕ → ℕ → ℕ → ℕ → ℕ
  | [], _, _, i => i
  | c :: rest, chance, sum, i =>
    if chance ≤ sum + c then i else chooseGo rest chance (sum + c) (i + 1)

/-- The index RegionWeather::chooseNewWeather computes from the drawn
chance (rollDice(100) + 1, a value in 1..100). -/
def chooseNewWeatherIndex (chances : List ℕ) (chance : ℕ) : ℕ :=
  chooseGo chances chance 0 0

/-- RegionWeather::chooseNewWeather as a state transformer. -/
def RegionWeather.chooseNewWeather (rw : RegionWeather) (chance : ℕ) : RegionWeather :=
  { rw with mWeather := (chooseNewWeatherIndex rw.mChances chance : ℤ) }

/-- RegionWeather::setWeather. -/
def RegionWeather.setWeather (rw : RegionWeather) (weatherID : ℤ) : RegionWeather :=
  { rw with mWeather := weatherID }

/-- RegionWeather::getWeather: lazily selects a new weather when the stored
id is the invalid sentinel; returns the id together with the possibly
updated region state. -/
def RegionWeather.getWeather (rw : RegionWeather) (chance : ℕ) : ℤ × RegionWeather :=
  if rw.mWeather = invalidWeatherID then
    let rw1 := rw.chooseNewWeather chance
    (rw1.mWeather, rw1)
  else
    (rw.mWeather, rw)

/-- std::vector reserve: adjusts capacity only; the elements and the size
are unchanged. -/
def vectorReserve (l : List ℕ) (_requested : ℕ) : List ℕ := l

/-- One `mChances[i] = *it` write of RegionWeather::setChances: in bounds
only when i is below the vector size; an out-of-bounds write is modelled
as none. -/
def writeAt (l : List ℕ) (i v : ℕ) : Option (List ℕ) :=
  if i < l.length then some (l.set i v) else none

/-- The write loop of RegionWeather::setChances, writing chances[i] into
slot i for every index of the input. -/
def setChancesLoop (stored : List ℕ) : List ℕ → ℕ → Option (List ℕ)
  | [], _ => some stored
  | c :: rest, i =>
    match writeAt stored i c with
    | none => none
    | some stored1 => setChancesLoop stored1 rest (i + 1)

/-- RegionWeather::setChances: reserve (which does not grow the table),
the write loop, then reselection when the stored id lost support.  The
chance parameter feeds a chooseNewWeather call when one happens. -/
def RegionWeather.setChances (rw : RegionWeather) (chances : List ℕ) (chance : ℕ) :
    Option RegionWeather :=
  let stored := if rw.mChances.length < chances.length
                then vectorReserve rw.mChances chances.length
                else rw.mChances
  match setChancesLoop stored chances 0 with
  | none => none
  | some cs =>
    let rw1 : RegionWeather := { rw with mChances := cs }
    if rw1.mWeather < 0 ∨ cs.length ≤ rw1.mWeather.toNat then
      some (rw1.chooseNewWeather chance)
    else if cs.getD rw1.mWeather.toNat 0 = 0 then
      some (rw1.chooseNewWeather chance)
    else
      some rw1

/-- ASCII lowercasing, modelling Misc::StringUtils::lowerCase as used for
region map keys. -/
def lowerCase (s : String) : String := s.map Char.toLower

/-- Association-list lookup over the region map (std::map::find). -/
def lookupRegion : List (String × RegionWeather) → String → Option RegionWeather
  | [], _ => none
  | (k, v) :: rest, key => if k = key then some v else lookupRegion rest key

/-- Replace the binding of a key in the region map (writing through a
std::map iterator). -/
def updateRegion : List (String × RegionWeather) → String → RegionWeather →
    List (String × RegionWeather)
  | [], _, _ => []
  | (k, v) :: rest, key, rw =>
    if k = key then (k, rw) :: rest else (k, v) :: updateRegion rest key rw

/-- The WeatherManager fields driving the transition state machine and the
operations verified here. -/
structure WeatherManagerState where
  mWeatherSettings : List Weather
  mHoursBetweenWeatherChanges : ℚ
  mCurrentRegion : String
  mTimePassed : ℚ
  mFastForward : Bool
  mWeatherUpdateTime : ℚ
  mTransitionFactor : ℚ
  mCurrentWeather : ℤ
  mNextWeather : ℤ
  mQueuedWeather : ℤ
  mRegions : List (String × RegionWeather)
deriving DecidableEq

/-- The default Weather used by the vector-indexing model; the source only
indexes mWeatherSettings at valid ids. -/
def defaultWeather : Weather := ⟨0, 0, 0, 0, 0⟩

/-- mWeatherSettings[id] for a non-negative id. -/
def weatherAt (s : WeatherManagerState) (id : ℤ) : Weather :=
  s.mWeatherSettings.getD id.toNat defaultWeather

/-- WeatherManager::inTransition. -/
def inTransition (s : WeatherManagerState) : Prop :=
  s.mNextWeather ≠ invalidWeatherID

instance (s : WeatherManagerState) : Decidable (inTransition s) :=
  inferInstanceAs (Decidable (s.mNextWeather ≠ invalidWeatherID))

/-- WeatherManager::forceWeather. -/
def forceWeather (s : WeatherManagerState) (weatherID : ℤ) : WeatherManagerState :=
  { s with mTransitionFactor := 0
         , mCurrentWeather := weatherID
         , mNextWeather := invalidWeatherID
         , mQueuedWeather := invalidWeatherID }

/-- WeatherManager::addWeatherTransition.  The source asserts
0 ≤ weatherID < mWeatherSettings.size(). -/
def addWeatherTransition (s : WeatherManagerState) (weatherID : ℤ) :
    WeatherManagerState :=
  if ¬ inTransition s ∧ weatherID ≠ s.mCurrentWeather then
    { s with mNextWeather := weatherID, mTransitionFactor := 1 }
  else if inTransition s ∧ weatherID ≠ s.mNextWeather then
    { s with mQueuedWeather := weatherID }
  else
    s

/-- WeatherManager::updateWeatherTransitions. -/
def updateWeatherTransitions (s : WeatherManagerState) (elapsedRealSeconds : ℚ) :
    WeatherManagerState :=
  if s.mFastForward = false ∧ inTransition s then
    let delta := (weatherAt s s.mNextWeather).transitionDelta
    let factor := s.mTransitionFactor - elapsedRealSeconds * delta
    if factor ≤ 0 then
      let s1 := { s with mCurrentWeather := s.mNextWeather
                       , mNextWeather := s.mQueuedWeather
                       , mQueuedWeather := invalidWeatherID }
      if inTransition s1 then
        let newDelta := (weatherAt s1 s1.mNextWeather).transitionDelta
        let remainingSeconds := -(factor / delta)
        { s1 with mTransitionFactor := 1 - remainingSeconds * newDelta }
      else
        { s1 with mTransitionFactor := 0 }
    else
      { s with mTransitionFactor := factor }
  else
    let current := if s.mQueuedWeather ≠ invalidWeatherID then s.mQueuedWeather
                   else if s.mNextWeather ≠ invalidWeatherID then s.mNextWeather
                   else s.mCurrentWeather
    { s with mCurrentWeather := current
           , mNextWeather := invalidWeatherID
           , mQueuedWeather := invalidWeatherID
           , mFastForward := false }

/-- WeatherManager::advanceTime. -/
def advanceTime (s : WeatherManagerState) (hours : ℚ) (incremental : Bool) :
    WeatherManagerState :=
  { s with mTimePassed := s.mTimePassed + hours
         , mFastForward := if incremental = false then true else s.mFastForward }

/-- WeatherManager::regionalWeatherChanged.  playerRegion is none when the
player is not in a cell, otherwise the raw region name of the player cell;
the chance parameter feeds getWeather when it has to draw. -/
def regionalWeatherChanged (playerRegion : Option String) (regionID : String)
    (chance : ℕ) (s : WeatherManagerState) : WeatherManagerState :=
  match playerRegion with
  | none => s
  | some cellRegion =>
    let pr := lowerCase cellRegion
    if pr ≠ "" ∧ pr = regionID then
      match lookupRegion s.mRegions regionID with
      | none => s
      | some rw =>
        let res := rw.getWeather chance
        addWeatherTransition
          { s with mRegions := updateRegion s.mRegions regionID res.2 } res.1
    else s

/-- WeatherManager::changeWeather: validates the weather id against the
config list, looks up the region by lowercased id, stores the new selection
and notifies regionalWeatherChanged (which reads the freshly stored
selection through the map, as the source does through its reference). -/
def changeWeather (playerRegion : Option String) (regionID : String)
    (weatherID : ℕ) (chance : ℕ) (s : WeatherManagerState) : WeatherManagerState :=
  if weatherID < s.mWeatherSettings.length then
    let key := lowerCase regionID
    match lookupRegion s.mRegions key with
    | none => s
    | some rw =>
      let rw1 := rw.setWeather (weatherID : ℤ)
      regionalWeatherChanged playerRegion key chance
        { s with mRegions := updateRegion s.mRegions key rw1 }
  else s

/-- WeatherManager::updateWeatherTime: drains mTimePassed from the update
timer; on expiry, expires every regional selection and rearms the timer. -/
def updateWeatherTime (s : WeatherManagerState) : Bool × WeatherManagerState :=
  let s1 := { s with mWeatherUpdateTime := s.mWeatherUpdateTime - s.mTimePassed
                   , mTimePassed := 0 }
  if s1.mWeatherUpdateTime ≤ 0 then
    (true,
     { s1 with mRegions := s1.mRegions.map
                 (fun p => (p.1, p.2.setWeather invalidWeatherID))
             , mWeatherUpdateTime := s1.mWeatherUpdateTime + s.mHoursBetweenWeatherChanges })
  else
    (false, s1)

/-- WeatherManager::updateWeatherRegion. -/
def updateWeatherRegion (s : WeatherManagerState) (playerRegion : String) :
    Bool × WeatherManagerState :=
  if playerRegion ≠ "" ∧ playerRegion ≠ s.mCurrentRegion then
    (true, { s with mCurrentRegion := playerRegion })
  else
    (false, s)

/-- The unpaused transition-machinery portion of one WeatherManager::update
tick: the timer and region checks (with the short-circuit evaluation of
the source), the resulting addWeatherTransition on the current region
weather, then updateWeatherTransitions. -/
def updateTick (playerRegionRaw : String) (chance : ℕ) (duration : ℚ)
    (s : WeatherManagerState) : WeatherManagerState :=
  let playerRegion := lowerCase playerRegionRaw
  let r1 := updateWeatherTime s
  let r2 := if r1.1 then (true, r1.2) else updateWeatherRegion r1.2 playerRegion
  let s3 :=
    if r2.1 then
      match lookupRegion r2.2.mRegions r2.2.mCurrentRegion with
      | none => r2.2
      | some rw =>
        let res := rw.getWeather chance
        addWeatherTransition
          { r2.2 with mRegions := updateRegion r2.2.mRegions r2.2.mCurrentRegion res.2 }
          res.1
    else r2.2
  updateWeatherTransitions s3 duration

/-- The fields of an ESM::WeatherState record as read by readRecord. -/
structure WeatherSaveState where
  mCurrentRegion : String
  mTimePassed : ℚ
  mFastForward : Bool
  mWeatherUpdateTime : ℚ
  mTransitionFactor : ℚ
  mCurrentWeather : ℤ
  mNextWeather : ℤ
  mQueuedWeather : ℤ
  mRegions : List (String × RegionWeather)
deriving DecidableEq

/-- WeatherManager::readRecord for a REC_WTHR record: discards records
below the oldest compatible format (2), otherwise copies every persisted
field verbatim; an empty region map triggers importRegions, modelled by
the staticRegions parameter. -/
def readRecord (staticRegions : List (String × RegionWeather))
    (s : WeatherManagerState) (format : ℤ) (st : WeatherSaveState) :
    WeatherManagerState :=
  if format < 2 then s
  else
    { s with mCurrentRegion := st.mCurrentRegion
           , mTimePassed := st.mTimePassed
           , mFastForward := st.mFastForward
           , mWeatherUpdateTime := st.mWeatherUpdateTime
           , mTransitionFactor := st.mTransitionFactor
           , mCurrentWeather := st.mCurrentWeather
           , mNextWeather := st.mNextWeather
           , mQueuedWeather := st.mQueuedWeather
           , mRegions := if st.mRegions.isEmpty then staticRegions else st.mRegions }

/-- A weather id is the sentinel or a valid index into an n-entry config
list. -/
def idOk (n : ℕ) (id : ℤ) : Prop :=
  id = invalidWeatherID ∨ (0 ≤ id ∧ id < (n : ℤ))

instance (n : ℕ) (id : ℤ) : Decidable (idOk n id) :=
  inferInstanceAs (Decidable (_ ∨ _))

/-- The WeatherManager invariant of the specification: next is the
sentinel exactly when no transition is in progress, queued is only set
while transitioning, and all three ids are valid indices when not the
sentinel. -/
def wmInvariant (s : WeatherManagerState) : Prop :=
  (¬ inTransition s ↔ s.mNextWeather = invalidWeatherID) ∧
  (s.mQueuedWeather ≠ invalidWeatherID → s.mNextWeather ≠ invalidWeatherID) ∧
  idOk s.mWeatherSettings.length s.mCurrentWeather ∧
  idOk s.mWeatherSettings.length s.mNextWeather ∧
  idOk s.mWeatherSettings.length s.mQueuedWeather

instance (s : WeatherManagerState) : Decidable (wmInvariant s) :=
  inferInstanceAs (Decidable (_ ∧ _))

/-- Validity of a persisted weather record with respect to an n-entry
config list. -/
def recordOk (n : ℕ) (st : WeatherSaveState) : Prop :=
  (st.mQueuedWeather ≠ invalidWeatherID → st.mNextWeather ≠ invalidWeatherID) ∧
  idOk n st.mCurrentWeather ∧ idOk n st.mNextWeather ∧ idOk n st.mQueuedWeather

instance (n : ℕ) (st : WeatherSaveState) : Decidable (recordOk n st) :=
  inferInstanceAs (Decidable (_ ∧ _))

/-- Validity of the region map for the per-tick update: stored selections
are valid-or-sentinel, chance tables fit the config list, and the drawn
chance is absorbed by every table. -/
def regionsOk (n : ℕ) (chance : ℕ) (regions : List (String × RegionWeather)) : Prop :=
  ∀ p ∈ regions,
    idOk n p.2.mWeather ∧ p.2.mChances.length ≤ n ∧ chance ≤ p.2.mChances.sum

/-- A concrete manager state used by the witness theorems: the 10-entry
config list and the initial-state ids of the constructor. -/
def sampleManager : WeatherManagerState :=
  { mWeatherSettings := List.replicate 10 defaultWeather
  , mHoursBetweenWeatherChanges := 1
  , mCurrentRegion := ""
  , mTimePassed := 0
  , mFastForward := false
  , mWeatherUpdateTime := 1
  , mTransitionFactor := 0
  , mCurrentWeather := 0
  , mNextWeather := invalidWeatherID
  , mQueuedWeather := invalidWeatherID
  , mRegions := [] }

/-- Claim C1: addWeatherTransition with a valid weather index begins a
transition (next = id, factor = 1) when idle and the id differs from
current; while transitioning it overwrites the single queued slot when the
id differs from next, leaving current, next and the factor unchanged, and
repeated calls make the last write win. -/
theorem addWeatherTransition_spec (s : WeatherManagerState) (id id2 : ℤ)
    (hv : 0 ≤ id ∧ id < (s.mWeatherSettings.length : ℤ))
    (hv2 : 0 ≤ id2 ∧ id2 < (s.mWeatherSettings.length : ℤ)) :
    (s.mNextWeather = invalidWeatherID → id ≠ s.mCurrentWeather →
      addWeatherTransition s id
        = { s with mNextWeather := id, mTransitionFactor := 1 }) ∧
    (s.mNextWeather ≠ invalidWeatherID → id ≠ s.mNextWeather →
      addWeatherTransition s id = { s with mQueuedWeather := id }) ∧
    (s.mNextWeather ≠ invalidWeatherID → id ≠ s.mNextWeather → id2 ≠ s.mNextWeather →
      (addWeatherTransition (addWeatherTransition s id) id2).mQueuedWeather = id2) := by
  refine ⟨?_, ?_, ?_⟩
  · intro hn hc
    simp [addWeatherTransition, inTransition, hn, hc]
  · intro hn hc
    simp [addWeatherTransition, inTransition, hn, hc]
  · intro hn h1 h2
    simp [addWeatherTransition, inTransition, hn, h1, h2]

/-- Witness for C1 at a concrete idle state. -/
theorem addWeatherTransition_spec_witness :
    addWeatherTransition sampleManager 3
      = { sampleManager with mNextWeather := 3, mTransitionFactor := 1 } :=
  (addWeatherTransition_spec sampleManager 3 4 (by decide) (by decide)).1
    rfl (by decide)

/-- Claim C2: while transitioning and not fast-forwarding, one
updateWeatherTransitions tick decrements the factor by
elapsed * transitionDelta(next); on crossing to ≤ 0 it commits current,
promotes queued into next, clears queued, and either carries the overshoot
into the new factor (queued was valid) or rests at factor 0. -/
theorem updateWeatherTransitions_spec (s : WeatherManagerState) (e : ℚ)
    (hff : s.mFastForward = false) (ht : s.mNextWeather ≠ invalidWeatherID) :
    (0 < s.mTransitionFactor - e * (weatherAt s s.mNextWeather).transitionDelta →
      updateWeatherTransitions s e
        = { s with mTransitionFactor :=
            s.mTransitionFactor - e * (weatherAt s s.mNextWeather).transitionDelta }) ∧
    (s.mTransitionFactor - e * (weatherAt s s.mNextWeather).transitionDelta ≤ 0 →
      (updateWeatherTransitions s e).mCurrentWeather = s.mNextWeather ∧
      (updateWeatherTransitions s e).mNextWeather = s.mQueuedWeather ∧
      (updateWeatherTransitions s e).mQueuedWeather = invalidWeatherID ∧
      (s.mQueuedWeather ≠ invalidWeatherID →
        (updateWeatherTransitions s e).mTransitionFactor
          = 1 - (-((s.mTransitionFactor
                     - e * (weatherAt s s.mNextWeather).transitionDelta)
                   / (weatherAt s s.mNextWeather).transitionDelta))
                * (weatherAt s s.mQueuedWeather).transitionDelta) ∧
      (s.mQueuedWeather = invalidWeatherID →
        (updateWeatherTransitions s e).mTransitionFactor = 0)) := by
  constructor
  · intro hpos
    simp only [updateWeatherTransitions]
    rw [if_pos ⟨hff, ht⟩, if_neg (by simpa using not_le.mpr hpos)]
  · intro hle
    simp only [updateWeatherTransitions]
    rw [if_pos ⟨hff, ht⟩, if_pos (by simpa using hle)]
    by_cases hq : s.mQueuedWeather = invalidWeatherID
    · rw [if_neg (by simp [inTransition, hq])]
      refine ⟨rfl, rfl, rfl, ?_, fun _ => rfl⟩
      intro hcon
      exact absurd hq hcon
    · rw [if_pos (by simp [inTransition, hq])]
      refine ⟨rfl, rfl, rfl, fun _ => rfl, ?_⟩
      intro hcon
      exact absurd hcon hq

/-- A concrete transitioning manager state with a queued weather, used by
the C2 witness. -/
def sampleTransitioning : WeatherManagerState :=
  { sampleManager with
      mWeatherSettings := List.replicate 10 { defaultWeather with mTransitionDelta := 1 }
    , mNextWeather := (3 : ℤ)
    , mQueuedWeather := (5 : ℤ)
    , mTransitionFactor := (1 : ℚ) }

/-- Witness for C2 at a concrete transitioning state crossing to zero. -/
theorem updateWeatherTransitions_spec_witness :
    (0 < sampleTransitioning.mTransitionFactor
          - 2 * (weatherAt sampleTransitioning sampleTransitioning.mNextWeather).transitionDelta →
      updateWeatherTransitions sampleTransitioning 2
        = { sampleTransitioning with mTransitionFactor :=
            sampleTransitioning.mTransitionFactor
              - 2 * (weatherAt sampleTransitioning sampleTransitioning.mNextWeather).transitionDelta }) ∧
    (sampleTransitioning.mTransitionFactor
        - 2 * (weatherAt sampleTransitioning sampleTransitioning.mNextWeather).transitionDelta ≤ 0 →
      (updateWeatherTransitions sampleTransitioning 2).mCurrentWeather
          = sampleTransitioning.mNextWeather ∧
      (updateWeatherTransitions sampleTransitioning 2).mNextWeather
          = sampleTransitioning.mQueuedWeather ∧
      (updateWeatherTransitions sampleTransitioning 2).mQueuedWeather = invalidWeatherID ∧
      (sampleTransitioning.mQueuedWeather ≠ invalidWeatherID →
        (updateWeatherTransitions sampleTransitioning 2).mTransitionFactor
          = 1 - (-((sampleTransitioning.mTransitionFactor
                     - 2 * (weatherAt sampleTransitioning sampleTransitioning.mNextWeather).transitionDelta)
                   / (weatherAt sampleTransitioning sampleTransitioning.mNextWeather).transitionDelta))
                * (weatherAt sampleTransitioning sampleTransitioning.mQueuedWeather).transitionDelta) ∧
      (sampleTransitioning.mQueuedWeather = invalidWeatherID →
        (updateWeatherTransitions sampleTransitioning 2).mTransitionFactor = 0)) :=
  updateWeatherTransitions_spec sampleTransitioning 2 rfl (by decide)

/-- Claim C3: advanceTime with incremental = false raises the fast-forward
flag, and the next updateWeatherTransitions call snaps current to queued
if set, else to next if set, clearing next, queued and the flag. -/
theorem fastForward_snap_spec (s : WeatherManagerState) (h e : ℚ) :
    ((updateWeatherTransitions (advanceTime s h false) e).mCurrentWeather
        = (if s.mQueuedWeather ≠ invalidWeatherID then s.mQueuedWeather
           else if s.mNextWeather ≠ invalidWeatherID then s.mNextWeather
           else s.mCurrentWeather)) ∧
    (updateWeatherTransitions (advanceTime s h false) e).mNextWeather
        = invalidWeatherID ∧
    (updateWeatherTransitions (advanceTime s h false) e).mQueuedWeather
        = invalidWeatherID ∧
    (updateWeatherTransitions (advanceTime s h false) e).mFastForward = false := by
  have hforward : (advanceTime s h false).mFastForward = true := rfl
  simp only [updateWeatherTransitions]
  rw [if_neg (by simp [hforward])]
  simp [advanceTime]

/-- Claim C8: calculateThunder with isPaused = true returns the flash
brightness held before the call, changes no Weather state, and emits no
thunder sound, across any number of consecutive calls. -/
theorem calculateThunder_paused_spec (w : Weather) (calls : List (ℚ × ℚ × ℚ × ℕ)) :
    runThunder true w calls = (w, calls.map (fun _ => (w.mFlashBrightness, []))) := by
  induction calls with
  | nil => rfl
  | cons c rest ih =>
    obtain ⟨tr, es, p, d⟩ := c
    simp [runThunder, Weather.calculateThunder, ih]

/-- Claim C9: changeWeather with an out-of-range weather id or an unknown
region id is a no-op. -/
theorem changeWeather_invalid_spec (playerRegion : Option String)
    (regionID : String) (weatherID chance : ℕ) (s : WeatherManagerState)
    (h : s.mWeatherSettings.length ≤ weatherID ∨
         lookupRegion s.mRegions (lowerCase regionID) = none) :
    changeWeather playerRegion regionID weatherID chance s = s := by
  rcases h with h | h
  · simp only [changeWeather]
    rw [if_neg (by omega)]
  · by_cases hw : weatherID < s.mWeatherSettings.length
    · simp only [changeWeather]
      rw [if_pos hw]
      simp [h]
    · simp only [changeWeather]
      rw [if_neg hw]

/-- Witness for C9: unknown region id on the sample state. -/
theorem changeWeather_invalid_spec_witness :
    changeWeather none "Ascadian Isles" 3 1 sampleManager = sampleManager :=
  changeWeather_invalid_spec none "Ascadian Isles" 3 1 sampleManager (Or.inr rfl)

/-- Shifting the loop counter of the selection loop. -/
theorem chooseGo_shift (l : List ℕ) : ∀ chance sum i,
    chooseGo l chance sum i = i + chooseGo l chance sum 0 := by
  induction l with
  | nil => intro chance sum i; simp [chooseGo]
  | cons c rest ih =>
    intro chance sum i
    by_cases h : chance ≤ sum + c
    · simp [chooseGo, h]
    · simp only [chooseGo, if_neg h]
      rw [ih chance (sum + c) (i + 1), ih chance (sum + c) 1]
      omega

/-- A prefix sum of a list of naturals is at most the total sum. -/
theorem sum_take_le (l : List ℕ) (n : ℕ) : (l.take n).sum ≤ l.sum := by
  conv_rhs => rw [← List.take_append_drop n l]
  rw [List.sum_append]
  exact Nat.le_add_right _ _

/-- The selection loop stops at the first index whose accumulated sum
absorbs the drawn chance, provided the whole list absorbs it. -/
theorem chooseGo_zero_spec (l : List ℕ) : ∀ chance sum, l ≠ [] →
    chance ≤ sum + l.sum →
    chooseGo l chance sum 0 < l.length ∧
    chance ≤ sum + (l.take (chooseGo l chance sum 0 + 1)).sum ∧
    ∀ j < chooseGo l chance sum 0, sum + (l.take (j + 1)).sum < chance := by
  induction l with
  | nil => intro chance sum hne; exact absurd rfl hne
  | cons c rest ih =>
    intro chance sum _ habs
    by_cases h : chance ≤ sum + c
    · refine ⟨by simp [chooseGo, h], ?_, ?_⟩
      · simp [chooseGo, h]
      · intro j hj
        simp [chooseGo, h] at hj
    · have hlt : sum + c < chance := Nat.lt_of_not_le h
      have hrest : rest ≠ [] := by
        intro hempty
        rw [hempty] at habs
        simp at habs
        omega
      have habs2 : chance ≤ (sum + c) + rest.sum := by
        simp [List.sum_cons] at habs
        omega
      have hrec : chooseGo (c :: rest) chance sum 0
          = 1 + chooseGo rest chance (sum + c) 0 := by
        simp only [chooseGo, if_neg h]
        exact chooseGo_shift rest chance (sum + c) 1
      obtain ⟨ih1, ih2, ih3⟩ := ih chance (sum + c) hrest habs2
      refine ⟨?_, ?_, ?_⟩
      · rw [hrec]; simp only [List.length_cons]; omega
      · rw [hrec]
        have : (c :: rest).take (1 + chooseGo rest chance (sum + c) 0 + 1)
            = c :: rest.take (chooseGo rest chance (sum + c) 0 + 1) := by
          have : 1 + chooseGo rest chance (sum + c) 0 + 1
              = (chooseGo rest chance (sum + c) 0 + 1) + 1 := by omega
          rw [this, List.take_succ_cons]
        rw [this, List.sum_cons]
        omega
      · rw [hrec]
        intro j hj
        cases j with
        | zero => simpa using hlt
        | succ j1 =>
          have hj1 : j1 < chooseGo rest chance (sum + c) 0 := by omega
          have := ih3 j1 hj1
          rw [List.take_succ_cons, List.sum_cons]
          omega

/-- When the drawn chance exceeds the total of the table, the selection
loop runs off the end and returns the loop counter, the table size. -/
theorem chooseGo_overflow (l : List ℕ) : ∀ chance sum i, sum + l.sum < chance →
    chooseGo l chance sum i = i + l.length := by
  induction l with
  | nil => intro chance sum i _; simp [chooseGo]
  | cons c rest ih =>
    intro chance sum i hov
    have h1 : ¬ chance ≤ sum + c := by
      simp [List.sum_cons] at hov
      omega
    simp only [chooseGo, if_neg h1]
    rw [ih chance (sum + c) (i + 1) (by simp [List.sum_cons] at hov; omega)]
    simp [List.length_cons]
    omega

/-- Claim C5: for a drawn chance in [1,100] reached by some prefix sum of
the chance table, chooseNewWeather selects the first index whose running
sum reaches the drawn chance. -/
theorem chooseNewWeather_first_index (rw : RegionWeather) (chance : ℕ)
    (h1 : 1 ≤ chance) (h100 : chance ≤ 100)
    (hhit : ∃ i, i < rw.mChances.length ∧ chance ≤ (rw.mChances.take (i + 1)).sum) :
    ∃ i : ℕ, (rw.chooseNewWeather chance).mWeather = (i : ℤ) ∧
      i < rw.mChances.length ∧
      chance ≤ (rw.mChances.take (i + 1)).sum ∧
      ∀ j < i, (rw.mChances.take (j + 1)).sum < chance := by
  obtain ⟨i0, hi0, hsum0⟩ := hhit
  have hne : rw.mChances ≠ [] := by
    intro hempty
    rw [hempty] at hi0
    simp at hi0
  have habs : chance ≤ 0 + rw.mChances.sum := by
    have := sum_take_le rw.mChances (i0 + 1)
    omega
  obtain ⟨hlt, hle, hfirst⟩ := chooseGo_zero_spec rw.mChances chance 0 hne habs
  exact ⟨chooseGo rw.mChances chance 0 0, rfl, hlt, by simpa using hle,
    fun j hj => by have := hfirst j hj; omega⟩

/-- Witness for C5 on the table [30, 70] with draw 50. -/
theorem chooseNewWeather_first_index_witness :
    ∃ i : ℕ, (RegionWeather.chooseNewWeather ⟨0, [30, 70]⟩ 50).mWeather = (i : ℤ) ∧
      i < ([30, 70] : List ℕ).length ∧
      50 ≤ (([30, 70] : List ℕ).take (i + 1)).sum ∧
      ∀ j < i, (([30, 70] : List ℕ).take (j + 1)).sum < 50 :=
  chooseNewWeather_first_index ⟨0, [30, 70]⟩ 50 (by decide) (by decide)
    ⟨1, by decide, by decide⟩

/-- Counterexample for C6 as stated: on the table [30, 30] with draw 100
(the table sums to 60 < 100 and the draw exceeds that sum), the selected
id is 2, the table size, not the last index 1. -/
theorem chooseNewWeather_fallback_counterexample :
    ([30, 30] : List ℕ).sum < 100 ∧
    ([30, 30] : List ℕ).sum < 100 ∧
    (RegionWeather.chooseNewWeather ⟨0, [30, 30]⟩ 100).mWeather
        ≠ ((([30, 30] : List ℕ).length - 1 : ℕ) : ℤ) ∧
    (RegionWeather.chooseNewWeather ⟨0, [30, 30]⟩ 100).mWeather = 2 := by
  refine ⟨by decide, by decide, by decide, by decide⟩

/-- Claim C6 (amended): when the chance table sums to less than 100 and
the drawn value exceeds that sum, chooseNewWeather selects the index equal
to the table size — one past the last index, an out-of-range id. -/
theorem chooseNewWeather_fallback_spec (rw : RegionWeather) (chance : ℕ)
    (hsum : rw.mChances.sum < 100) (hdraw : rw.mChances.sum < chance) :
    (rw.chooseNewWeather chance).mWeather = (rw.mChances.length : ℤ) := by
  have := chooseGo_overflow rw.mChances chance 0 0 (by omega)
  simp only [RegionWeather.chooseNewWeather, chooseNewWeatherIndex]
  rw [this]
  simp

/-- Witness for C6 (amended) on the table [30, 30] with draw 100. -/
theorem chooseNewWeather_fallback_spec_witness :
    (RegionWeather.chooseNewWeather ⟨0, [30, 30]⟩ 100).mWeather
      = ((([30, 30] : List ℕ).length : ℕ) : ℤ) :=
  chooseNewWeather_fallback_spec ⟨0, [30, 30]⟩ 100 (by decide) (by decide)

/-- The setChances write loop succeeds exactly when every written index is
below the stored size. -/
theorem setChancesLoop_isSome (chances : List ℕ) : ∀ stored i,
    (setChancesLoop stored chances i).isSome
      ↔ (chances = [] ∨ i + chances.length ≤ stored.length) := by
  induction chances with
  | nil => intro stored i; simp [setChancesLoop]
  | cons c rest ih =>
    intro stored i
    by_cases h : i < stored.length
    · simp only [setChancesLoop, writeAt, if_pos h]
      rw [ih (stored.set i c) (i + 1)]
      simp only [List.length_set, List.length_cons]
      constructor
      · rintro (hr | hr)
        · subst hr; right; simpa using h
        · right; omega
      · rintro (hr | hr)
        · exact absurd hr (by simp)
        · by_cases hrest : rest = []
          · exact Or.inl hrest
          · right; omega
    · simp only [setChancesLoop, writeAt, if_neg h]
      simp only [Option.isSome_none, List.length_cons]
      constructor
      · intro hfalse; exact absurd hfalse (by simp)
      · rintro (hr | hr)
        · exact absurd hr (by simp)
        · omega

/-- On success the write loop keeps the stored size, writes the j-th input
into slot i + j, and leaves slots below i untouched. -/
theorem setChancesLoop_writes (chances : List ℕ) : ∀ stored i res,
    setChancesLoop stored chances i = some res →
    res.length = stored.length ∧
    (∀ j, j < chances.length → res.getD (i + j) 0 = chances.getD j 0) ∧
    (∀ k, k < i → res.getD k 0 = stored.getD k 0) := by
  induction chances with
  | nil =>
    intro stored i res hres
    simp only [setChancesLoop] at hres
    cases hres
    exact ⟨rfl, by intro j hj; simp at hj, fun k _ => rfl⟩
  | cons c rest ih =>
    intro stored i res hres
    by_cases h : i < stored.length
    · simp only [setChancesLoop, writeAt, if_pos h] at hres
      obtain ⟨hlen, hwr, hlow⟩ := ih (stored.set i c) (i + 1) res hres
      rw [List.length_set] at hlen
      refine ⟨hlen, ?_, ?_⟩
      · intro j hj
        cases j with
        | zero =>
          have hi : res.getD i 0 = (stored.set i c).getD i 0 := hlow i (by omega)
          rw [Nat.add_zero, hi]
          simp [List.getD, List.getElem?_set_self, h]
        | succ j1 =>
          have := hwr j1 (by simpa using hj)
          have harith : i + (j1 + 1) = i + 1 + j1 := by omega
          rw [harith, this]
          simp
      · intro k hk
        have := hlow k (by omega)
        rw [this]
        simp only [List.getD]
        rw [List.get?_set_ne c stored (show i ≠ k by omega)]
    · simp only [setChancesLoop, writeAt, if_neg h] at hres
      exact absurd hres (by simp)

/-- Claim C10: setChances writes chances[i] into slot i for every index of
the input; reserve does not grow the stored table, so every write is in
bounds exactly when the input is no longer than the stored table, and a
longer input makes some write index past the end. -/
theorem setChances_inbounds_spec (rw : RegionWeather) (chances : List ℕ)
    (chance : ℕ) :
    vectorReserve rw.mChances chances.length = rw.mChances ∧
    ((rw.setChances chances chance).isSome ↔ chances.length ≤ rw.mChances.length) ∧
    (∀ rw2, rw.setChances chances chance = some rw2 →
      ∀ j, j < chances.length → rw2.mChances.getD j 0 = chances.getD j 0) := by
  have hstored : (if rw.mChances.length < chances.length
      then vectorReserve rw.mChances chances.length
      else rw.mChances) = rw.mChances := by
    split <;> rfl
  have hiso : (rw.setChances chances chance).isSome
      = (setChancesLoop rw.mChances chances 0).isSome := by
    simp only [RegionWeather.setChances, hstored]
    cases hloop : setChancesLoop rw.mChances chances 0 with
    | none => rfl
    | some cs =>
      simp only [Option.isSome_some]
      split
      · simp
      · split <;> simp
  refine ⟨rfl, ?_, ?_⟩
  · rw [hiso, setChancesLoop_isSome]
    constructor
    · rintro (hr | hr)
      · subst hr; simp
      · omega
    · intro hle
      right
      omega
  · intro rw2 hrw2 j hj
    cases hloop : setChancesLoop rw.mChances chances 0 with
    | none =>
      simp only [RegionWeather.setChances, hstored, hloop] at hrw2
      exact absurd hrw2 (by simp)
    | some cs =>
      simp only [RegionWeather.setChances, hstored, hloop] at hrw2
      have hw := (setChancesLoop_writes chances rw.mChances 0 cs hloop).2.1 j hj
      rw [Nat.zero_add] at hw
      have hcs : rw2.mChances = cs := by
        split at hrw2
        · cases hrw2; rfl
        · split at hrw2
          · cases hrw2; rfl
          · cases hrw2; rfl
      rw [hcs, hw]

/-- Witness for C10 on a two-entry stored table. -/
theorem setChances_inbounds_spec_witness :
    vectorReserve (RegionWeather.mk 0 [50, 50]).mChances ([100, 0] : List ℕ).length
        = (RegionWeather.mk 0 [50, 50]).mChances ∧
    (((RegionWeather.mk 0 [50, 50]).setChances [100, 0] 1).isSome
        ↔ ([100, 0] : List ℕ).length ≤ (RegionWeather.mk 0 [50, 50]).mChances.length) ∧
    (∀ rw2, (RegionWeather.mk 0 [50, 50]).setChances [100, 0] 1 = some rw2 →
      ∀ j, j < ([100, 0] : List ℕ).length →
        rw2.mChances.getD j 0 = ([100, 0] : List ℕ).getD j 0) :=
  setChances_inbounds_spec (RegionWeather.mk 0 [50, 50]) [100, 0] 1

/-- A convex combination lies between its endpoints. -/
theorem lerp_bounds (a b f : ℚ) (h0 : 0 ≤ f) (h1 : f ≤ 1) :
    min a b ≤ lerp a b f ∧ lerp a b f ≤ max a b := by
  unfold lerp
  constructor
  · rcases le_total a b with hab | hab
    · rw [min_eq_left hab]; nlinarith
    · rw [min_eq_right hab]; nlinarith
  · rcases le_total a b with hab | hab
    · rw [max_eq_right hab]; nlinarith
    · rw [max_eq_left hab]; nlinarith

/-- The four-way minimum is below each keyframe. -/
theorem min4_le (s d st n x : ℚ) (hx : x = s ∨ x = d ∨ x = st ∨ x = n) :
    min (min s d) (min st n) ≤ x := by
  rcases hx with h | h | h | h <;> subst h <;> simp [min_le_iff]

/-- Each keyframe is below the four-way maximum. -/
theorem le_max4 (s d st n x : ℚ) (hx : x = s ∨ x = d ∨ x = st ∨ x = n) :
    x ≤ max (max s d) (max st n) := by
  rcases hx with h | h | h | h <;> subst h <;> simp [le_max_iff]

/-- A lerp of two keyframes with a factor in [0,1] stays inside the
four-keyframe envelope. -/
theorem lerp_in_envelope (s d st n a b f : ℚ)
    (ha : a = s ∨ a = d ∨ a = st ∨ a = n) (hb : b = s ∨ b = d ∨ b = st ∨ b = n)
    (h0 : 0 ≤ f) (h1 : f ≤ 1) :
    min (min s d) (min st n) ≤ lerp a b f ∧
    lerp a b f ≤ max (max s d) (max st n) := by
  obtain ⟨hl, hr⟩ := lerp_bounds a b f h0 h1
  exact ⟨le_trans (le_min (min4_le s d st n a ha) (min4_le s d st n b hb)) hl,
         le_trans hr (max_le (le_max4 s d st n a ha) (le_max4 s d st n b hb))⟩

/-- Counterexample for C7 as stated: with boundaries satisfying
nightEnd < dayStart ≤ dayEnd < nightStart (6 < 8 ≤ 18 < 20) but a sunrise
time (10) far above nightEnd, an hour of 6.5 in [0,24) and monotonically
decreasing keyframes 3 ≥ 2 ≥ 1 ≥ 0, getValue extrapolates with factor 7
and returns -18, far below the least keyframe. -/
theorem getValue_convex_counterexample :
    ((6 : ℚ) < 8 ∧ (8 : ℚ) ≤ 18 ∧ (18 : ℚ) < 20) ∧
    ((0 : ℚ) ≤ 13/2 ∧ (13/2 : ℚ) < 24) ∧
    ((3 : ℚ) ≥ 2 ∧ (2 : ℚ) ≥ 1 ∧ (1 : ℚ) ≥ 0) ∧
    TimeOfDayInterpolator.getValue (TimeOfDayInterpolator.mk 3 2 1 0) (13/2)
        (TimeOfDaySettings.mk 20 6 8 18 10)
      < min (min (3 : ℚ) 2) (min (1 : ℚ) 0) := by
  refine ⟨by norm_num, by norm_num, by norm_num, ?_⟩
  norm_num [TimeOfDayInterpolator.getValue, lerp]

/-- Claim C7 (amended): for gameHour in [0,24) and settings satisfying the
boundary invariant nightEnd < dayStart ≤ dayEnd < nightStart together with
the sunrise and duration side conditions the source relies on
(nightEnd ≤ sunriseTime ≤ nightEnd + 1/2, dayStart + 1 ≤ sunriseTime + 3,
nightStart ≤ dayEnd + 2), getValue returns a keyframe value or a convex
combination of two adjacent keyframes, and never leaves the keyframe
envelope. -/
theorem getValue_convex_spec (iv : TimeOfDayInterpolator)
    (ts : TimeOfDaySettings) (gameHour : ℚ)
    (hhour0 : 0 ≤ gameHour) (hhour24 : gameHour < 24)
    (hb1 : ts.mNightEnd < ts.mDayStart) (hb2 : ts.mDayStart ≤ ts.mDayEnd)
    (hb3 : ts.mDayEnd < ts.mNightStart)
    (hsr1 : ts.mNightEnd ≤ ts.mSunriseTime)
    (hsr2 : ts.mSunriseTime ≤ ts.mNightEnd + 1/2)
    (hsr3 : ts.mDayStart + 1 ≤ ts.mSunriseTime + 3)
    (hss : ts.mNightStart ≤ ts.mDayEnd + 2) :
    (∃ f, 0 ≤ f ∧ f ≤ 1 ∧
      (iv.getValue gameHour ts = iv.mNightValue ∨
       iv.getValue gameHour ts = iv.mDayValue ∨
       iv.getValue gameHour ts = lerp iv.mSunriseValue iv.mNightValue f ∨
       iv.getValue gameHour ts = lerp iv.mSunriseValue iv.mDayValue f ∨
       iv.getValue gameHour ts = lerp iv.mSunsetValue iv.mDayValue f ∨
       iv.getValue gameHour ts = lerp iv.mSunsetValue iv.mNightValue f)) ∧
    min (min iv.mSunriseValue iv.mDayValue) (min iv.mSunsetValue iv.mNightValue)
        ≤ iv.getValue gameHour ts ∧
    iv.getValue gameHour ts
        ≤ max (max iv.mSunriseValue iv.mDayValue)
              (max iv.mSunsetValue iv.mNightValue) := by
  by_cases h1 : gameHour ≤ ts.mNightEnd ∨ gameHour ≥ ts.mNightStart + 1
  · rw [TimeOfDayInterpolator.getValue, if_pos h1]
    exact ⟨⟨0, le_refl 0, by norm_num, Or.inl rfl⟩,
      min4_le _ _ _ _ _ (Or.inr (Or.inr (Or.inr rfl))), le_max4 _ _ _ _ _ (Or.inr (Or.inr (Or.inr rfl)))⟩
  · push_neg at h1
    obtain ⟨h1a, h1b⟩ := h1
    by_cases h2 : gameHour ≥ ts.mNightEnd ∧ gameHour ≤ ts.mDayStart + 1
    · rw [TimeOfDayInterpolator.getValue, if_neg (by push_neg; exact ⟨h1a, h1b⟩),
          if_pos h2]
      by_cases h3 : gameHour ≤ ts.mSunriseTime
      · rw [if_pos h3]
        have hf0 : 0 ≤ (ts.mSunriseTime - gameHour) / (1/2) :=
          div_nonneg (by linarith) (by norm_num)
        have hf1 : (ts.mSunriseTime - gameHour) / (1/2) ≤ 1 :=
          (div_le_one (by norm_num)).mpr (by linarith)
        exact ⟨⟨_, hf0, hf1, Or.inr (Or.inr (Or.inl rfl))⟩,
          lerp_in_envelope iv.mSunriseValue iv.mDayValue iv.mSunsetValue
            iv.mNightValue iv.mSunriseValue iv.mNightValue _ (Or.inl rfl) (Or.inr (Or.inr (Or.inr rfl))) hf0 hf1⟩
      · rw [if_neg h3]
        push_neg at h3
        have hf0 : 0 ≤ (gameHour - ts.mSunriseTime) / 3 :=
          div_nonneg (by linarith) (by norm_num)
        have hf1 : (gameHour - ts.mSunriseTime) / 3 ≤ 1 :=
          (div_le_one (by norm_num)).mpr (by linarith [h2.2])
        exact ⟨⟨_, hf0, hf1, Or.inr (Or.inr (Or.inr (Or.inl rfl)))⟩,
          lerp_in_envelope iv.mSunriseValue iv.mDayValue iv.mSunsetValue
            iv.mNightValue iv.mSunriseValue iv.mDayValue _ (Or.inl rfl) (Or.inr (Or.inl rfl)) hf0 hf1⟩
    · by_cases h4 : gameHour ≥ ts.mDayStart + 1 ∧ gameHour ≤ ts.mDayEnd - 1
      · rw [TimeOfDayInterpolator.getValue, if_neg (by push_neg; exact ⟨h1a, h1b⟩),
            if_neg h2, if_pos h4]
        exact ⟨⟨0, le_refl 0, by norm_num, Or.inr (Or.inl rfl)⟩,
          min4_le _ _ _ _ _ (Or.inr (Or.inl rfl)), le_max4 _ _ _ _ _ (Or.inr (Or.inl rfl))⟩
      · by_cases h5 : gameHour ≥ ts.mDayEnd - 1 ∧ gameHour ≤ ts.mNightStart + 1
        · rw [TimeOfDayInterpolator.getValue, if_neg (by push_neg; exact ⟨h1a, h1b⟩),
              if_neg h2, if_neg h4, if_pos h5]
          by_cases h6 : gameHour ≤ ts.mDayEnd + 1
          · rw [if_pos h6]
            have hf0 : 0 ≤ (ts.mDayEnd + 1 - gameHour) / 2 :=
              div_nonneg (by linarith) (by norm_num)
            have hf1 : (ts.mDayEnd + 1 - gameHour) / 2 ≤ 1 :=
              (div_le_one (by norm_num)).mpr (by linarith [h5.1])
            exact ⟨⟨_, hf0, hf1, Or.inr (Or.inr (Or.inr (Or.inr (Or.inl rfl))))⟩,
              lerp_in_envelope iv.mSunriseValue iv.mDayValue iv.mSunsetValue
                iv.mNightValue iv.mSunsetValue iv.mDayValue _ (Or.inr (Or.inr (Or.inl rfl))) (Or.inr (Or.inl rfl)) hf0 hf1⟩
          · rw [if_neg h6]
            push_neg at h6
            have hf0 : 0 ≤ (gameHour - (ts.mDayEnd + 1)) / 2 :=
              div_nonneg (by linarith) (by norm_num)
            have hf1 : (gameHour - (ts.mDayEnd + 1)) / 2 ≤ 1 :=
              (div_le_one (by norm_num)).mpr (by linarith [h5.2])
            exact ⟨⟨_, hf0, hf1, Or.inr (Or.inr (Or.inr (Or.inr (Or.inr rfl))))⟩,
              lerp_in_envelope iv.mSunriseValue iv.mDayValue iv.mSunsetValue
                iv.mNightValue iv.mSunsetValue iv.mNightValue _ (Or.inr (Or.inr (Or.inl rfl))) (Or.inr (Or.inr (Or.inr rfl))) hf0 hf1⟩
        · exfalso
          push_neg at h2 h4 h5
          rcases le_or_lt gameHour (ts.mDayStart + 1) with hcase | hcase
          · exact absurd (h2 (le_of_lt h1a)) (not_lt.mpr hcase)
          · rcases le_or_lt gameHour (ts.mDayEnd - 1) with hcase2 | hcase2
            · exact absurd (h4 (le_of_lt hcase)) (not_lt.mpr hcase2)
            · linarith [h5 (le_of_lt hcase2)]

/-- Witness for C7 (amended) at hour 12 with Morrowind-like boundaries. -/
theorem getValue_convex_spec_witness :
    (∃ f, 0 ≤ f ∧ f ≤ 1 ∧
      (TimeOfDayInterpolator.getValue (TimeOfDayInterpolator.mk 3 2 1 0) 12
          (TimeOfDaySettings.mk 20 (11/2) 8 18 6)
        = (TimeOfDayInterpolator.mk 3 2 1 0).mNightValue ∨
       TimeOfDayInterpolator.getValue (TimeOfDayInterpolator.mk 3 2 1 0) 12
          (TimeOfDaySettings.mk 20 (11/2) 8 18 6)
        = (TimeOfDayInterpolator.mk 3 2 1 0).mDayValue ∨
       TimeOfDayInterpolator.getValue (TimeOfDayInterpolator.mk 3 2 1 0) 12
          (TimeOfDaySettings.mk 20 (11/2) 8 18 6)
        = lerp 3 0 f ∨
       TimeOfDayInterpolator.getValue (TimeOfDayInterpolator.mk 3 2 1 0) 12
          (TimeOfDaySettings.mk 20 (11/2) 8 18 6)
        = lerp 3 2 f ∨
       TimeOfDayInterpolator.getValue (TimeOfDayInterpolator.mk 3 2 1 0) 12
          (TimeOfDaySettings.mk 20 (11/2) 8 18 6)
        = lerp 1 2 f ∨
       TimeOfDayInterpolator.getValue (TimeOfDayInterpolator.mk 3 2 1 0) 12
          (TimeOfDaySettings.mk 20 (11/2) 8 18 6)
        = lerp 1 0 f)) ∧
    min (min (3 : ℚ) 2) (min (1 : ℚ) 0)
        ≤ TimeOfDayInterpolator.getValue (TimeOfDayInterpolator.mk 3 2 1 0) 12
            (TimeOfDaySettings.mk 20 (11/2) 8 18 6) ∧
    TimeOfDayInterpolator.getValue (TimeOfDayInterpolator.mk 3 2 1 0) 12
        (TimeOfDaySettings.mk 20 (11/2) 8 18 6)
      ≤ max (max (3 : ℚ) 2) (max (1 : ℚ) 0) :=
  getValue_convex_spec (TimeOfDayInterpolator.mk 3 2 1 0)
    (TimeOfDaySettings.mk 20 (11/2) 8 18 6) 12
    (by norm_num) (by norm_num) (by norm_num) (by norm_num) (by norm_num)
    (by norm_num) (by norm_num) (by norm_num) (by norm_num)

/-- forceWeather with a valid-or-sentinel id establishes the invariant. -/
theorem forceWeather_invariant (s : WeatherManagerState) (id : ℤ)
    (hid : idOk s.mWeatherSettings.length id) :
    wmInvariant (forceWeather s id) :=
  ⟨by simp [inTransition, forceWeather], fun h => absurd rfl h, hid,
   Or.inl rfl, Or.inl rfl⟩

/-- addWeatherTransition preserves the invariant for a valid id (the
bounds the source asserts). -/
theorem addWeatherTransition_invariant (s : WeatherManagerState) (id : ℤ)
    (hs : wmInvariant s) (h0 : 0 ≤ id) (h1 : id < (s.mWeatherSettings.length : ℤ)) :
    wmInvariant (addWeatherTransition s id) := by
  obtain ⟨hiff, hq, hc, hn, hqd⟩ := hs
  unfold addWeatherTransition
  split_ifs with ha hb
  · exact ⟨by simp [inTransition],
      fun _ => show id ≠ invalidWeatherID by simp only [invalidWeatherID]; omega,
      hc, Or.inr ⟨h0, h1⟩, hqd⟩
  · exact ⟨by simp [inTransition], fun _ => hb.1, hc, hn, Or.inr ⟨h0, h1⟩⟩
  · exact ⟨hiff, hq, hc, hn, hqd⟩

/-- updateWeatherTransitions preserves the invariant. -/
theorem updateWeatherTransitions_invariant (s : WeatherManagerState) (e : ℚ)
    (hs : wmInvariant s) : wmInvariant (updateWeatherTransitions s e) := by
  obtain ⟨hiff, hq, hc, hn, hqd⟩ := hs
  simp only [updateWeatherTransitions]
  split_ifs with hcond hfac htrans hq1 hn1
  · exact ⟨by simp [inTransition], fun h => absurd rfl h, hn, hqd, Or.inl rfl⟩
  · exact ⟨by simp [inTransition], fun h => absurd rfl h, hn, hqd, Or.inl rfl⟩
  · exact ⟨by simp [inTransition], hq, hc, hn, hqd⟩
  · exact ⟨by simp [inTransition], fun h => absurd rfl h, hqd, Or.inl rfl, Or.inl rfl⟩
  · exact ⟨by simp [inTransition], fun h => absurd rfl h, hn, Or.inl rfl, Or.inl rfl⟩
  · exact ⟨by simp [inTransition], fun h => absurd rfl h, hc, Or.inl rfl, Or.inl rfl⟩

/-- A successful region lookup is a membership. -/
theorem lookupRegion_mem (regions : List (String × RegionWeather)) :
    ∀ key rw, lookupRegion regions key = some rw → (key, rw) ∈ regions := by
  induction regions with
  | nil => intro key rw h; simp [lookupRegion] at h
  | cons p rest ih =>
    intro key rw h
    obtain ⟨k, v⟩ := p
    by_cases hk : k = key
    · subst hk
      have hv : v = rw := by simpa [lookupRegion] using h
      subst hv
      exact List.mem_cons_self _ _
    · simp only [lookupRegion, if_neg hk] at h
      exact List.mem_cons_of_mem _ (ih key rw h)

/-- Updating a key that a lookup found makes the next lookup return the
written value. -/
theorem lookupRegion_update_self (regions : List (String × RegionWeather)) :
    ∀ key rw rw2, lookupRegion regions key = some rw →
      lookupRegion (updateRegion regions key rw2) key = some rw2 := by
  induction regions with
  | nil => intro key rw rw2 h; simp [lookupRegion] at h
  | cons p rest ih =>
    intro key rw rw2 h
    obtain ⟨k, v⟩ := p
    by_cases hk : k = key
    · simp [lookupRegion, updateRegion, hk]
    · simp only [lookupRegion, if_neg hk] at h
      simp only [updateRegion, if_neg hk, lookupRegion]
      exact ih key rw rw2 h

/-- The chance-table selection stays inside the table whenever the table
absorbs the positive drawn chance. -/
theorem chooseNewWeatherIndex_lt (chances : List ℕ) (chance : ℕ)
    (h1 : 1 ≤ chance) (hsum : chance ≤ chances.sum) :
    chooseNewWeatherIndex chances chance < chances.length := by
  have hne : chances ≠ [] := by
    intro h
    subst h
    simp at hsum
    omega
  exact (chooseGo_zero_spec chances chance 0 hne (by omega)).1

/-- getWeather yields a valid index when the stored id is valid-or-sentinel
and the chance table fits the config list and absorbs the drawn chance. -/
theorem getWeather_valid (rw : RegionWeather) (chance : ℕ) (n : ℕ)
    (hid : idOk n rw.mWeather) (hlen : rw.mChances.length ≤ n)
    (h1 : 1 ≤ chance) (hsum : chance ≤ rw.mChances.sum) :
    0 ≤ (rw.getWeather chance).1 ∧ (rw.getWeather chance).1 < (n : ℤ) := by
  unfold RegionWeather.getWeather
  split_ifs with hw
  · have hlt := chooseNewWeatherIndex_lt rw.mChances chance h1 hsum
    constructor
    · simp [RegionWeather.chooseNewWeather]
    · simp only [RegionWeather.chooseNewWeather]
      omega
  · rcases hid with h | h
    · exact absurd h hw
    · exact h

/-- regionalWeatherChanged preserves the invariant when the looked-up
region yields a valid index. -/
theorem regionalWeatherChanged_invariant (playerRegion : Option String)
    (regionID : String) (chance : ℕ) (s : WeatherManagerState)
    (hs : wmInvariant s)
    (hfound : ∀ rw, lookupRegion s.mRegions regionID = some rw →
      0 ≤ (rw.getWeather chance).1 ∧
      (rw.getWeather chance).1 < (s.mWeatherSettings.length : ℤ)) :
    wmInvariant (regionalWeatherChanged playerRegion regionID chance s) := by
  cases playerRegion with
  | none => exact hs
  | some cellRegion =>
    simp only [regionalWeatherChanged]
    split_ifs with hpr
    · cases hlook : lookupRegion s.mRegions regionID with
      | none => exact hs
      | some rw =>
        obtain ⟨hb0, hb1⟩ := hfound rw hlook
        exact addWeatherTransition_invariant _ _ hs hb0 hb1
    · exact hs

/-- changeWeather preserves the invariant. -/
theorem changeWeather_invariant (playerRegion : Option String)
    (regionID : String) (weatherID chance : ℕ) (s : WeatherManagerState)
    (hs : wmInvariant s) :
    wmInvariant (changeWeather playerRegion regionID weatherID chance s) := by
  by_cases hw : weatherID < s.mWeatherSettings.length
  · cases hlook : lookupRegion s.mRegions (lowerCase regionID) with
    | none =>
      simp only [changeWeather, if_pos hw, hlook]
      exact hs
    | some rw =>
      simp only [changeWeather, if_pos hw, hlook]
      refine regionalWeatherChanged_invariant _ _ _ _ ?_ ?_
      · exact hs
      · intro rw2 hlook2
        have hupd := lookupRegion_update_self s.mRegions (lowerCase regionID) rw
          (rw.setWeather (weatherID : ℤ)) hlook
        have heq : some (rw.setWeather (weatherID : ℤ)) = some rw2 :=
          hupd.symm.trans hlook2
        cases heq
        have hne : (rw.setWeather (weatherID : ℤ)).mWeather ≠ invalidWeatherID := by
          simp only [RegionWeather.setWeather, invalidWeatherID]
          omega
        unfold RegionWeather.getWeather
        rw [if_neg hne]
        show (0 : ℤ) ≤ (weatherID : ℤ) ∧ (weatherID : ℤ) < (s.mWeatherSettings.length : ℤ)
        omega
  · simp only [changeWeather, if_neg hw]
    exact hs

/-- readRecord preserves the invariant when the loaded record satisfies
it (its fields are copied without validation). -/
theorem readRecord_invariant (staticRegions : List (String × RegionWeather))
    (s : WeatherManagerState) (format : ℤ) (st : WeatherSaveState)
    (hs : wmInvariant s) (hrec : recordOk s.mWeatherSettings.length st) :
    wmInvariant (readRecord staticRegions s format st) := by
  obtain ⟨h1, h2, h3, h4⟩ := hrec
  unfold readRecord
  split_ifs with hf hemp
  · exact hs
  · exact ⟨by simp [inTransition], h1, h2, h3, h4⟩
  · exact ⟨by simp [inTransition], h1, h2, h3, h4⟩

/-- updateWeatherTime preserves the invariant: it only touches timers and
regional selections. -/
theorem updateWeatherTime_invariant (s : WeatherManagerState)
    (hs : wmInvariant s) : wmInvariant (updateWeatherTime s).2 := by
  simp only [updateWeatherTime]
  split_ifs <;> exact hs

/-- updateWeatherTime keeps the config list. -/
theorem updateWeatherTime_settings (s : WeatherManagerState) :
    (updateWeatherTime s).2.mWeatherSettings = s.mWeatherSettings := by
  simp only [updateWeatherTime]
  split_ifs <;> rfl

/-- updateWeatherTime keeps the region map valid: expiring a selection
writes the sentinel, which is valid-or-sentinel, and chance tables are
untouched. -/
theorem updateWeatherTime_regionsOk (s : WeatherManagerState) (n chance : ℕ)
    (hr : regionsOk n chance s.mRegions) :
    regionsOk n chance (updateWeatherTime s).2.mRegions := by
  simp only [updateWeatherTime]
  split_ifs with h
  · intro p hp
    simp only [List.mem_map] at hp
    obtain ⟨q, hq, hpq⟩ := hp
    subst hpq
    obtain ⟨_, hlen, hsum⟩ := hr q hq
    exact ⟨Or.inl rfl, hlen, hsum⟩
  · exact hr

/-- updateWeatherRegion preserves the invariant. -/
theorem updateWeatherRegion_invariant (s : WeatherManagerState) (pr : String)
    (hs : wmInvariant s) : wmInvariant (updateWeatherRegion s pr).2 := by
  unfold updateWeatherRegion
  split_ifs <;> exact hs

/-- updateWeatherRegion keeps the config list. -/
theorem updateWeatherRegion_settings (s : WeatherManagerState) (pr : String) :
    (updateWeatherRegion s pr).2.mWeatherSettings = s.mWeatherSettings := by
  unfold updateWeatherRegion
  split_ifs <;> rfl

/-- updateWeatherRegion keeps the region map. -/
theorem updateWeatherRegion_regions (s : WeatherManagerState) (pr : String) :
    (updateWeatherRegion s pr).2.mRegions = s.mRegions := by
  unfold updateWeatherRegion
  split_ifs <;> rfl

/-- The addWeatherTransition step of the tick on the current region
preserves the invariant when the region map is valid. -/
theorem tickTransition_invariant (s2 : WeatherManagerState) (chance : ℕ)
    (hs2 : wmInvariant s2) (h1 : 1 ≤ chance)
    (hr2 : regionsOk s2.mWeatherSettings.length chance s2.mRegions) :
    wmInvariant (match lookupRegion s2.mRegions s2.mCurrentRegion with
      | none => s2
      | some rw =>
        addWeatherTransition
          { s2 with mRegions :=
              updateRegion s2.mRegions s2.mCurrentRegion (rw.getWeather chance).2 }
          (rw.getWeather chance).1) := by
  cases hlook : lookupRegion s2.mRegions s2.mCurrentRegion with
  | none => exact hs2
  | some rw =>
    have hmem := lookupRegion_mem s2.mRegions s2.mCurrentRegion rw hlook
    obtain ⟨hid, hlen, hsum⟩ := hr2 _ hmem
    obtain ⟨hb0, hb1⟩ :=
      getWeather_valid rw chance s2.mWeatherSettings.length hid hlen h1 hsum
    exact addWeatherTransition_invariant _ _ hs2 hb0 hb1

/-- The per-tick transition machinery preserves the invariant, provided
the drawn chance is positive and the region map is valid (the conditions
under which the assert in addWeatherTransition holds). -/
theorem updateTick_invariant (playerRegionRaw : String) (chance : ℕ)
    (duration : ℚ) (s : WeatherManagerState) (hs : wmInvariant s)
    (h1 : 1 ≤ chance)
    (hr : regionsOk s.mWeatherSettings.length chance s.mRegions) :
    wmInvariant (updateTick playerRegionRaw chance duration s) := by
  have hInv1 : wmInvariant (updateWeatherTime s).2 := updateWeatherTime_invariant s hs
  have hReg1 : regionsOk (updateWeatherTime s).2.mWeatherSettings.length chance
      (updateWeatherTime s).2.mRegions := by
    rw [updateWeatherTime_settings]
    exact updateWeatherTime_regionsOk s _ chance hr
  simp only [updateTick]
  apply updateWeatherTransitions_invariant
  by_cases ht : (updateWeatherTime s).1 = true
  · simp only [ht, if_true]
    exact tickTransition_invariant _ chance hInv1 h1 hReg1
  · simp only [Bool.not_eq_true] at ht
    simp only [ht, Bool.false_eq_true, if_false]
    by_cases ht2 : (updateWeatherRegion (updateWeatherTime s).2
        (lowerCase playerRegionRaw)).1 = true
    · simp only [ht2, if_true]
      apply tickTransition_invariant _ chance
        (updateWeatherRegion_invariant _ _ hInv1) h1
      rw [updateWeatherRegion_settings, updateWeatherRegion_regions]
      exact hReg1
    · simp only [Bool.not_eq_true] at ht2
      simp only [ht2, Bool.false_eq_true, if_false]
      exact updateWeatherRegion_invariant _ _ hInv1

/-- Counterexample for C4 as stated: readRecord is listed among the
mutators, but it copies the persisted ids without validation; loading a
format-2 record carrying queued = 5 with next = the invalid sentinel sends
the invariant-satisfying initial state to a state violating the invariant. -/
theorem wmInvariant_counterexample :
    wmInvariant sampleManager ∧
    ¬ wmInvariant (readRecord [] sampleManager 2
        (WeatherSaveState.mk "" 0 false 0 0 0 invalidWeatherID 5 [])) := by
  constructor
  · refine ⟨by simp [inTransition, sampleManager], ?_, ?_, ?_, ?_⟩
    · intro h
      exact absurd rfl h
    · exact Or.inr (by constructor <;> decide)
    · exact Or.inl rfl
    · exact Or.inl rfl
  · intro hinv
    obtain ⟨_, hq, _⟩ := hinv
    exact absurd rfl (hq (by decide))

/-- Claim C4 (amended): the invariant — next is the sentinel iff not
transitioning, queued only set while transitioning, all non-sentinel ids
valid indices into the config list — is preserved by forceWeather and
addWeatherTransition for valid ids (the bounds addWeatherTransition
asserts), by updateWeatherTransitions and changeWeather unconditionally,
by the per-tick update whenever the drawn chance is positive and every
region chance table fits the config list and absorbs the draw, and by
readRecord exactly when the loaded record itself satisfies the invariant,
since its fields are copied without validation. -/
theorem wmInvariant_preservation (s : WeatherManagerState) (idF idA : ℤ)
    (e : ℚ) (playerRegion : Option String) (regionID : String)
    (weatherID chance : ℕ) (playerRegionRaw : String) (tickChance : ℕ)
    (duration : ℚ) (staticRegions : List (String × RegionWeather))
    (format : ℤ) (st : WeatherSaveState)
    (hs : wmInvariant s)
    (hF : idOk s.mWeatherSettings.length idF)
    (hA0 : 0 ≤ idA) (hA1 : idA < (s.mWeatherSettings.length : ℤ))
    (hrec : recordOk s.mWeatherSettings.length st)
    (h1 : 1 ≤ tickChance)
    (hreg : regionsOk s.mWeatherSettings.length tickChance s.mRegions) :
    wmInvariant (forceWeather s idF) ∧
    wmInvariant (addWeatherTransition s idA) ∧
    wmInvariant (updateWeatherTransitions s e) ∧
    wmInvariant (changeWeather playerRegion regionID weatherID chance s) ∧
    wmInvariant (readRecord staticRegions s format st) ∧
    wmInvariant (updateTick playerRegionRaw tickChance duration s) :=
  ⟨forceWeather_invariant s idF hF,
   addWeatherTransition_invariant s idA hs hA0 hA1,
   updateWeatherTransitions_invariant s e hs,
   changeWeather_invariant playerRegion regionID weatherID chance s hs,
   readRecord_invariant staticRegions s format st hs hrec,
   updateTick_invariant playerRegionRaw tickChance duration s hs h1 hreg⟩

/-- Witness for C4 (amended) at the sample state. -/
theorem wmInvariant_preservation_witness :
    wmInvariant (forceWeather sampleManager 0) ∧
    wmInvariant (addWeatherTransition sampleManager 3) ∧
    wmInvariant (updateWeatherTransitions sampleManager 1) ∧
    wmInvariant (changeWeather none "r" 2 50 sampleManager) ∧
    wmInvariant (readRecord [] sampleManager 2
        (WeatherSaveState.mk "" 0 false 0 0 0 invalidWeatherID invalidWeatherID [])) ∧
    wmInvariant (updateTick "" 50 1 sampleManager) :=
  wmInvariant_preservation sampleManager 0 3 1 none "r" 2 50 "" 50 1 []
    2 (WeatherSaveState.mk "" 0 false 0 0 0 invalidWeatherID invalidWeatherID [])
    (by decide) (by decide) (by decide) (by decide) (by decide) (by decide)
    (by intro p hp; exact absurd hp (by simp [sampleManager]))
